import Mathlib

/-!
Verification development for the ETL incremental-synchronization subsystem
(extractor framework, state tracker, dual-backend database layer) of the
claude-config repository.  Each Python function named below is shallowly
embedded as an executable Lean definition; machine-level effects
(subprocess dispatch, wall-clock time, filesystem stat) are abstracted to
explicit inputs, and Python exceptions are modelled as `Except` values.
-/

set_option maxRecDepth 40000

namespace ETL

/-! ## SQL value formatting — `database_backends.RemoteD1Backend._format_value`

Python: `None -> "NULL"`, `bool -> "1"/"0"` (checked before the numeric case,
since bool is a subclass of int), `int/float -> str(value)`, everything else
`-> "'" + str(value).replace("'", "''") + "'"`.  Floats are outside the model
(no claim exercises them); ints use exact integers. -/

/-- The single-quote character (codepoint 39). -/
def squote : Char := Char.ofNat 39

/-- Character-level rendering of Python `s.replace("'", "''")`: every
single-quote character is doubled, all other characters kept. -/
def escapeQuotes : List Char → List Char
  | [] => []
  | c :: cs => if c = squote then c :: c :: escapeQuotes cs else c :: escapeQuotes cs

/-- Decoder used to state round-tripping: collapse each doubled quote to one,
scanning left to right (the inverse reading of `escapeQuotes`). -/
def collapseQuotes : List Char → List Char
  | [] => []
  | [c] => [c]
  | c1 :: c2 :: cs =>
    if c1 = squote ∧ c2 = squote then c1 :: collapseQuotes cs
    else c1 :: collapseQuotes (c2 :: cs)

/-- SQL-insertable Python values reaching `_format_value` in this pipeline. -/
inductive Value where
  | null : Value
  | boolean : Bool → Value
  | intVal : Int → Value
  | strVal : String → Value
deriving DecidableEq

/-- Model of `RemoteD1Backend._format_value`. -/
def formatValue : Value → String
  | .null => "NULL"
  | .boolean b => if b then "1" else "0"
  | .intVal n => toString n
  | .strVal s => String.mk (squote :: (escapeQuotes s.data ++ [squote]))

/-- Decoding of a single-quoted SQL string literal: strip the outer quotes,
collapse each doubled quote to one. -/
def sqlStringDecode (lit : String) : String :=
  String.mk (collapseQuotes (lit.data.drop 1).dropLast)

/-! ## Character-level string helpers

Python's `str.strip`, `str.split(sep)`, `"sep" in s`, `str.endswith` and
`"/".join`, re-implemented on `List Char` so the kernel can evaluate them
(the inputs in this development are ASCII). -/

/-- ASCII whitespace, for `str.strip`. -/
def isSpaceChar (c : Char) : Bool :=
  c = ' ' || c = Char.ofNat 9 || c = Char.ofNat 10 || c = Char.ofNat 13 ||
  c = Char.ofNat 11 || c = Char.ofNat 12

/-- Model of Python `str.strip()`. -/
def strTrim (s : String) : String :=
  String.mk (((s.data.dropWhile isSpaceChar).reverse.dropWhile isSpaceChar).reverse)

/-- Split worker: greedy left-to-right split on the (nonempty) separator
`sep`.  The fuel argument (instantiated with the input length, an upper bound
on the number of steps since the separator is nonempty) makes the recursion
structural, hence kernel-evaluable. -/
def splitOnCharsAux (sep : List Char) : Nat → List Char → List Char → List (List Char)
  | _, [], acc => [acc.reverse]
  | 0, l, acc => [acc.reverse ++ l]
  | fuel + 1, c :: cs, acc =>
    if sep.isPrefixOf (c :: cs) then
      acc.reverse :: splitOnCharsAux sep fuel ((c :: cs).drop sep.length) []
    else
      splitOnCharsAux sep fuel cs (c :: acc)

/-- Model of Python `str.split(sep)` for a nonempty separator (the degenerate
empty separator is never used by the embedded code). -/
def strSplitOn (s sep : String) : List String :=
  match sep.data with
  | [] => [s]
  | s0 :: srest => (splitOnCharsAux (s0 :: srest) s.data.length s.data []).map String.mk

/-- Model of Python `sep in s` (substring containment), via the split. -/
def strContainsSub (s sep : String) : Bool :=
  (strSplitOn s sep).length ≥ 2

/-- Model of Python `str.endswith`. -/
def strEndsWith (s suffix : String) : Bool :=
  suffix.data.isSuffixOf s.data

/-- Model of Python `str[:-n]` (drop the last `n` characters). -/
def strDropRight (s : String) (n : Nat) : String :=
  String.mk (s.data.take (s.data.length - n))

/-- Model of Python `sep.join(parts)`. -/
def joinWith (sep : String) : List String → String
  | [] => ""
  | [x] => x
  | x :: xs => x ++ sep ++ joinWith sep xs

/-! ## Remote write buffer — `database_backends.RemoteD1Backend`

The buffer maps a normalized SQL key (`sql.strip()`) to the list of row
tuples accumulated for it.  External-process dispatch of a chunk is
abstracted to recording the chunk (the rows serialized into one multi-row
INSERT statement); the claims only concern which rows are dispatched, in
which grouping, and what remains buffered. -/

/-- A row tuple handed to `execute_batch`. -/
abbrev Row := List Value

/-- Serialization of one row as a parenthesized VALUES group,
`"(" + ",".join(formatted) + ")"`. -/
def formatRow (r : Row) : String :=
  "(" ++ joinWith "," (r.map formatValue) ++ ")"

/-- `RemoteD1Backend._buffer_limit` (records per buffer). -/
def bufferLimit : Nat := 500

/-- `RemoteD1Backend._statement_char_limit` (characters per SQL statement). -/
def statementCharLimit : Nat := 50000

/-- The conservative sub-chunk size used by `_flush_buffer`. -/
def chunkSize : Nat := 100

/-- The INSERT part extracted before serializing rows: the text before the
first `VALUES` when present (stripped), else the whole SQL stripped.  Used
identically by `_estimate_statement_size` and `_flush_buffer`. -/
def insertPartOf (sql : String) : String :=
  if strContainsSub sql "VALUES" then strTrim ((strSplitOn sql "VALUES").headD "")
  else strTrim sql

/-- Model of `RemoteD1Backend._estimate_statement_size`.  Python computes
`len(insert_part) + len(" VALUES ") + avg_record_size * len(records)` with
`avg_record_size = sum(len(v) for v in sample) / len(sample)` as a float and
truncates with `int(...)`.  The model uses the exact value
`ip + 8 + (S * n) / k` with natural division, which equals the floor of the
real-number expression (exact arithmetic in place of IEEE floats). -/
def estimateStatementSize (sql : String) (records : List Row) : Nat :=
  if records.isEmpty then sql.length
  else
    let insertPart := insertPartOf sql
    let sampleVals := (records.take 5).map formatRow
    insertPart.length + 8 +
      ((sampleVals.map String.length).sum * records.length) / sampleVals.length

/-- Chunking worker, structurally recursive on a fuel bound (any fuel at
least the input length gives the chunk decomposition, since every step
consumes at least one element). -/
def chunkListAux {α : Type} : Nat → List α → List (List α)
  | _, [] => []
  | 0, l => [l]
  | fuel + 1, c :: cs =>
    (c :: cs).take chunkSize :: chunkListAux fuel ((c :: cs).drop chunkSize)

/-- Split a list into consecutive chunks of `chunkSize` (the
`for i in range(0, len(records), chunk_size)` loop of `_flush_buffer`). -/
def chunkList {α : Type} (l : List α) : List (List α) :=
  chunkListAux l.length l

/-- The in-memory buffer state of a `RemoteD1Backend`: an association list
from normalized SQL text to buffered rows (Python dict, insertion-ordered). -/
structure D1Backend where
  buffer : List (String × List Row)
deriving DecidableEq

/-- Python `self._buffer.get(key, [])` (reading an absent key as empty). -/
def getBuffer (buf : List (String × List Row)) (key : String) : List Row :=
  match buf.find? (fun p => decide (p.1 = key)) with
  | some p => p.2
  | none => []

/-- Python `self._buffer[key] = v` (replace the binding, or append a new one). -/
def setBuffer : List (String × List Row) → String → List Row → List (String × List Row)
  | [], key, v => [(key, v)]
  | (k, w) :: rest, key, v =>
    if k = key then (key, v) :: rest else (k, w) :: setBuffer rest key v

/-- Outcome of one `execute_batch` call: the returned count, the new backend
state, and the chunks dispatched if this call triggered a flush. -/
structure BatchStep where
  ret : Nat
  backend : D1Backend
  flushed : Option (List (List Row))
deriving DecidableEq

/-- Model of `RemoteD1Backend.execute_batch` (with the `_flush_buffer`
success path inlined): empty input returns 0 untouched; otherwise the rows
are appended to the buffer keyed by `sql.strip()`; a flush is triggered when
the buffered count reaches `bufferLimit` or the estimated statement size
exceeds `statementCharLimit`; a flush dispatches the whole buffered list in
`chunkSize`-row chunks, clears the buffer for the key, and returns the total
flushed; otherwise the call returns the number of rows of this call. -/
def execBatch (b : D1Backend) (sql : String) (records : List Row) : BatchStep :=
  if records.isEmpty then ⟨0, b, none⟩
  else
    let key := strTrim sql
    let buf := getBuffer b.buffer key ++ records
    let shouldFlush :=
      decide (buf.length ≥ bufferLimit) ||
      decide (estimateStatementSize key buf > statementCharLimit)
    if shouldFlush then ⟨buf.length, ⟨setBuffer b.buffer key []⟩, some (chunkList buf)⟩
    else ⟨records.length, ⟨setBuffer b.buffer key buf⟩, none⟩

/-- Trace of a sequence of `execute_batch` calls: final backend state, the
value returned by each call, and the chunk lists of each flush that occurred. -/
structure Trace where
  backend : D1Backend
  rets : List Nat
  flushes : List (List (List Row))
deriving DecidableEq

/-- Run a sequence of `execute_batch` calls against one SQL template. -/
def runCalls (sql : String) : List (List Row) → D1Backend → Trace
  | [], b => ⟨b, [], []⟩
  | c :: cs, b =>
    let s := execBatch b sql c
    let t := runCalls sql cs s.backend
    ⟨t.backend, s.ret :: t.rets,
      match s.flushed with
      | some f => f :: t.flushes
      | none => t.flushes⟩

/-- Model of `_flush_all_buffers` over the buffer entries (success path:
every nonempty buffered key is flushed in `chunkSize`-row chunks; returns the
total row count flushed and the dispatched chunk lists in key order). -/
def flushKeys : List (String × List Row) → Nat × List (List (List Row))
  | [] => (0, [])
  | (_, v) :: rest =>
    if v.isEmpty then flushKeys rest
    else
      let r := flushKeys rest
      (v.length + r.1, chunkList v :: r.2)

/-- Model of `RemoteD1Backend.close()` / `_flush_all_buffers` (drain). -/
def flushAllBuffers (b : D1Backend) : Nat × List (List (List Row)) :=
  flushKeys b.buffer

/-- Model of the exception path of `_flush_buffer`: when dispatch of the
chunk with index `failIdx` raises, `total_inserted` is the number of rows of
the chunks already dispatched, and the buffer for the key is reassigned to
`records[len(records) - total_inserted:]` when `total_inserted > 0`, else to
the whole list (source lines 305-309).  The function returns the list left
in the buffer for retry. -/
def flushBufferOnFail (records : List Row) (failIdx : Nat) : List Row :=
  let totalInserted := (((chunkList records).take failIdx).map List.length).sum
  if 0 < totalInserted then records.drop (records.length - totalInserted)
  else records

/-! ## State tracker — `etl_state.StateTracker`

The `etl_file_state` table is an association list keyed by absolute file
path; a row carries the source name and the recorded fingerprint.
Timestamps (`datetime` values, persisted as ISO strings and parsed back with
`fromisoformat`, an order-preserving round trip) are modelled as integers. -/

/-- One row of `etl_file_state` (the `file_path` key is held separately). -/
structure FileRow where
  source : String
  mtime : Int
  size : Int
  lastProcessed : Int
deriving DecidableEq

/-- The `query_one("SELECT mtime, size FROM etl_file_state WHERE file_path = ?")`
lookup. -/
def lookupFileState (tbl : List (String × FileRow)) (path : String) : Option FileRow :=
  (tbl.find? (fun p => decide (p.1 = path))).map (fun p => p.2)

/-- Model of `StateTracker.should_process_file`: `--force` short-circuits to
true; a missing record (new file) is true; otherwise true iff the current
mtime is strictly newer than recorded or the current size differs. -/
def shouldProcessFile (force : Bool) (tbl : List (String × FileRow)) (path : String)
    (curMtime curSize : Int) : Bool :=
  if force then true
  else
    match lookupFileState tbl path with
    | none => true
    | some prev => decide (curMtime > prev.mtime) || decide (curSize ≠ prev.size)

/-- The `INSERT OR REPLACE INTO etl_file_state` upsert keyed by path. -/
def insertOrReplaceFileState :
    List (String × FileRow) → String → FileRow → List (String × FileRow)
  | [], path, row => [(path, row)]
  | (p, r) :: rest, path, row =>
    if p = path then (path, row) :: rest
    else (p, r) :: insertOrReplaceFileState rest path row

/-! ## Backend selection and fallback — `etl_database.DatabaseManager`

The two external failure sources (`RemoteD1Backend()` construction raising,
and `connect()` of the chosen backend raising) are abstracted to boolean
inputs; backend objects are reduced to their identity (remote, or local with
its database path). -/

/-- The module-level `DEFAULT_DB` path of `etl_database.py`. -/
def DEFAULT_DB : String := "~/.local/share/claude/conversations.db"

/-- A constructed backend object: remote D1, or local SQLite at a path. -/
inductive BackendObj where
  | remoteB : BackendObj
  | localB : String → BackendObj
deriving DecidableEq

/-- Constructor arguments of `DatabaseManager.__init__`. -/
structure ManagerArgs where
  dbPath : Option String
  remote : Bool
  fallbackToLocal : Bool

/-- Environment outcomes: whether `RemoteD1Backend()` raises, whether the
remote `connect()` probe raises, and whether a local `connect()` raises. -/
structure ExtEnv where
  remoteCtorRaises : Bool
  remoteConnectRaises : Bool
  localConnectRaises : Bool

/-- The `DatabaseManager` state after construction. -/
structure Manager where
  backend : BackendObj
  remote : Bool
  fallbackToLocal : Bool
deriving DecidableEq

/-- Model of `DatabaseManager.__init__`: remote requested tries the remote
constructor, falling back to local (at `db_path or DEFAULT_DB`) only when the
fallback flag is set, else a fatal `RuntimeError`; local mode constructs the
local backend at `db_path or DEFAULT_DB`. -/
def initManager (a : ManagerArgs) (env : ExtEnv) : Except String Manager :=
  if a.remote then
    if env.remoteCtorRaises then
      if a.fallbackToLocal then
        .ok ⟨.localB (a.dbPath.getD DEFAULT_DB), false, a.fallbackToLocal⟩
      else .error "RuntimeError: Failed to initialize remote D1 backend"
    else .ok ⟨.remoteB, a.remote, a.fallbackToLocal⟩
  else .ok ⟨.localB (a.dbPath.getD DEFAULT_DB), a.remote, a.fallbackToLocal⟩

/-- Whether `self.backend.connect()` raises in the given environment. -/
def backendConnectRaises (env : ExtEnv) : BackendObj → Bool
  | .remoteB => env.remoteConnectRaises
  | .localB _ => env.localConnectRaises

/-- Model of `DatabaseManager.connect`: on a raise, falls back exactly when
`self.remote and self.fallback_to_local`, replacing the backend with
`LocalSQLiteBackend(DEFAULT_DB)` (NOT the constructor-supplied `db_path`),
clearing `self.remote`, and connecting the new backend; otherwise re-raises. -/
def connectManager (m : Manager) (env : ExtEnv) : Except String Manager :=
  if backendConnectRaises env m.backend then
    if m.remote && m.fallbackToLocal then
      if env.localConnectRaises then .error "connect failed"
      else .ok ⟨.localB DEFAULT_DB, false, m.fallbackToLocal⟩
    else .error "connect failed"
  else .ok m

/-- Construction followed by `connect()` (the orchestrator's usage). -/
def initAndConnect (a : ManagerArgs) (env : ExtEnv) : Except String Manager :=
  (initManager a env).bind (fun m => connectManager m env)

/-- Abstract state of the selection state machine. -/
inductive BK where
  | remote : BK
  | local : BK
deriving DecidableEq

/-- The state a backend object occupies. -/
def backendKind : BackendObj → BK
  | .remoteB => .remote
  | .localB _ => .local

/-- The start state: `Remote` if explicitly requested, else `Local`. -/
def requestedBK (remote : Bool) : BK :=
  if remote then .remote else .local

/-- The state trajectory of one run of the factory: the requested start
state, the state after construction, and the state after `connect()`
(error when the run aborts). -/
def managerTrace (a : ManagerArgs) (env : ExtEnv) : Except String (List BK) :=
  (initManager a env).bind fun m =>
    (connectManager m env).map fun m2 =>
      [requestedBK a.remote, backendKind m.backend, backendKind m2.backend]

/-- Count of adjacent `x → y` transitions in a state list. -/
def transCount (tr : List BK) (x y : BK) : Nat :=
  (tr.zip tr.tail).countP (fun p => decide (p.1 = x ∧ p.2 = y))

/-! ## Database tables and the wired `db` object

The extractors and the state tracker receive the `DatabaseManager` (`db` in
`etl.py:main`), yet execute single-row statements through `self.db.conn`.
`DatabaseManager` defines no `conn` attribute, so in Python that attribute
access raises `AttributeError`; the statements only work when `db` is a
bare `LocalSQLiteBackend` (which has `.conn`).  `DbObj` records which object
is behind `self.db`, and `connGuard` models the `self.db.conn` access.
`execute_batch` and `query_one` are real `DatabaseManager` methods and work
for both.

Tables are modelled by their natural keys (non-key attributes that no claim
reads are elided); `tool_uses`/`tool_results` use plain INSERT (no key) and
are modelled as row counts. -/

/-- Python exception kinds arising in the embedded code. -/
inductive PyErr where
  | attributeError : PyErr
  | osError : PyErr
  | keyError : PyErr
deriving DecidableEq

/-- Decidable equality on `Except` results, for evaluating runs. -/
instance exceptDecEq {ε α : Type} [DecidableEq ε] [DecidableEq α] :
    DecidableEq (Except ε α) := fun x y =>
  match x, y with
  | .ok a, .ok b =>
    if h : a = b then .isTrue (by rw [h]) else .isFalse (fun hc => h (Except.ok.inj hc))
  | .error a, .error b =>
    if h : a = b then .isTrue (by rw [h]) else .isFalse (fun hc => h (Except.error.inj hc))
  | .ok _, .error _ => .isFalse (fun hc => Except.noConfusion hc)
  | .error _, .ok _ => .isFalse (fun hc => Except.noConfusion hc)

/-- The object behind `self.db` in the extractors / state tracker. -/
inductive DbObj where
  | manager : DbObj
  | localBackend : DbObj
deriving DecidableEq

/-- Model of evaluating `self.db.conn` and using it: `DatabaseManager` has no
`conn` attribute, so the access raises `AttributeError`; a bare
`LocalSQLiteBackend` performs the action. -/
def connGuard {α : Type} (db : DbObj) (action : α) : Except PyErr α :=
  match db with
  | .manager => .error .attributeError
  | .localBackend => .ok action

/-- One row of the append-only `etl_runs` table (the real float duration is
not modelled; no claim reads it). -/
structure RunRow where
  runTs : Int
  source : String
  files : Nat
  records : Nat
  errors : Nat
  status : String
deriving DecidableEq

/-- The database tables touched by the modelled extractors. -/
structure Tables where
  projects : List String
  sessions : List String
  agents : List (String × String)
  messages : List String
  todos : List String
  toolUses : Nat
  toolResults : Nat
  etlFileState : List (String × FileRow)
  etlRuns : List RunRow
deriving DecidableEq

/-- Sequential `INSERT OR IGNORE` of a batch of keyed rows: rows whose key is
already present (in the table or earlier in the batch) are ignored; returns
the new table and the count of rows actually inserted (the `executemany`
rowcount the local backend sums). -/
def insertOrIgnoreKeys (tbl : List String) (keys : List String) : List String × Nat :=
  keys.foldl
    (fun acc k => if acc.1.contains k then acc else (acc.1 ++ [k], acc.2 + 1))
    (tbl, 0)

/-- Sequential `INSERT OR IGNORE` for the `agents` table, keyed by agent id. -/
def insertOrIgnoreAgents (tbl : List (String × String)) (rows : List (String × String)) :
    List (String × String) × Nat :=
  rows.foldl
    (fun acc r =>
      if acc.1.any (fun p => decide (p.1 = r.1)) then acc
      else (acc.1 ++ [r], acc.2 + 1))
    (tbl, 0)

/-- Model of `StateTracker` construction state: the wired `db` object, the
`--force` flag, and the run timestamp fixed at construction. -/
structure TrackerState where
  db : DbObj
  force : Bool
  runTs : Int

/-- `StateTracker.should_process_file` as called by the extractors (the
`query_one` lookup works through `DatabaseManager`). -/
def trackerShouldProcess (st : TrackerState) (t : Tables) (path : String)
    (curMtime curSize : Int) : Bool :=
  shouldProcessFile st.force t.etlFileState path curMtime curSize

/-- Model of `StateTracker.mark_processed`: an `INSERT OR REPLACE` into
`etl_file_state` executed through `self.db.conn` (hence guarded). -/
def markProcessed (st : TrackerState) (t : Tables) (source path : String)
    (curMtime curSize : Int) : Except PyErr Tables :=
  connGuard st.db
    { t with etlFileState :=
        insertOrReplaceFileState t.etlFileState path ⟨source, curMtime, curSize, st.runTs⟩ }

/-- The `"success" if errors == 0 else "partial"` status. -/
def statusOf (errors : Nat) : String :=
  if errors = 0 then "success" else "partial"

/-- Model of `StateTracker.log_run`: a plain append to `etl_runs` executed
through `self.db.conn` (hence guarded). -/
def logRun (st : TrackerState) (t : Tables) (source : String)
    (files records errors : Nat) (status : String) : Except PyErr Tables :=
  connGuard st.db
    { t with etlRuns := t.etlRuns ++ [⟨st.runTs, source, files, records, errors, status⟩] }

/-! ## Extractors — `etl_extractors.py`

File parsing is abstracted: each candidate file carries the outcome its
on-disk content would produce (raising, or the parsed records), with the
per-file control flow (`should_process_file` gate, try/except accounting,
`mark_processed`, final `log_run`) translated from the source loops.
Wall-clock duration is not modelled. -/

/-- A file's current stat fingerprint. -/
structure FStat where
  mtime : Int
  size : Int
deriving DecidableEq

/-- The counts of `ExtractionResult` (duration elided). -/
structure ExtractionResult where
  filesProcessed : Nat
  recordsInserted : Nat
  errorsCount : Nat
deriving DecidableEq

/-- Accumulator of an extractor's per-file loop. -/
structure LoopAcc where
  files : Nat
  records : Nat
  errors : Nat
  tables : Tables

/-- Model of `TodosExtractor._parse_todo_filename`: strip a `.json` suffix,
split on `-agent-`; exactly two parts give (parent, ref), else (name, ""). -/
def parseTodoFilename (filename : String) : String × String :=
  let name := if strEndsWith filename ".json" then strDropRight filename 5 else filename
  match strSplitOn name "-agent-" with
  | [p, r] => (p, r)
  | _ => (name, "")

/-- One element of a todos JSON array (fields beyond those read are elided). -/
structure TodoItem where
  content : String
  activeForm : String
  status : String
deriving DecidableEq

/-- What reading and JSON-decoding a todos file yields. -/
inductive TodoJson where
  | unreadable : TodoJson
  | invalidJson : TodoJson
  | notAList : TodoJson
  | items : List TodoItem → TodoJson

/-- A candidate todos file. -/
structure TodoFile where
  name : String
  path : String
  stat : FStat
  data : TodoJson

/-- The `SELECT id FROM agents WHERE session_id = ?` lookup. -/
def lookupAgentBySession (t : Tables) (ref : String) : Option String :=
  (t.agents.find? (fun p => decide (p.2 = ref))).map (fun p => p.1)

/-- Model of `TodosExtractor._process_todo_file`.  A read failure raises; a
JSON decode failure or a non-list payload is caught inside and returns 0.
The optional agent lookup runs only when `ref != "" and not dry_run`; when a
row IS found the source does `agent_record[0]` on the dict returned by
`query_one`, which raises `KeyError` (dicts returned by the backends are
keyed by column name, not position).  Records get ids
`{parent}-{ref}-{idx}` and are batch-inserted with `INSERT OR IGNORE`
(through `db.execute_batch`, which works for both db objects); a dry run
returns the record count without inserting. -/
def processTodoFile (_db : DbObj) (t : Tables) (f : TodoFile) (dryRun : Bool) :
    Except PyErr (Nat × Tables) :=
  match f.data with
  | .unreadable => .error .osError
  | .invalidJson => .ok (0, t)
  | .notAList => .ok (0, t)
  | .items items =>
    let pr := parseTodoFilename f.name
    if pr.2 ≠ "" ∧ ¬dryRun ∧ (lookupAgentBySession t pr.2).isSome then
      .error .keyError
    else
      let ids := (List.range items.length).map
        (fun idx => pr.1 ++ "-" ++ pr.2 ++ "-" ++ toString idx)
      if ids.isEmpty then .ok (0, t)
      else if dryRun then .ok (ids.length, t)
      else
        let r := insertOrIgnoreKeys t.todos ids
        .ok (r.2, { t with todos := r.1 })

/-- The per-file loop of `TodosExtractor.extract` (lines 530-543): skip files
not due; on success bump records then files then `mark_processed` (whose own
failure is caught by the same per-file except, adding an error on top of the
already-counted file); on a raise count an error and continue. -/
def todosLoop (db : DbObj) (st : TrackerState) (dryRun : Bool) :
    List TodoFile → LoopAcc → LoopAcc
  | [], acc => acc
  | f :: fs, acc =>
    if ¬ trackerShouldProcess st acc.tables f.path f.stat.mtime f.stat.size then
      todosLoop db st dryRun fs acc
    else
      match processTodoFile db acc.tables f dryRun with
      | .error _ => todosLoop db st dryRun fs { acc with errors := acc.errors + 1 }
      | .ok (r, t2) =>
        match markProcessed st t2 "todos" f.path f.stat.mtime f.stat.size with
        | .ok t3 =>
          todosLoop db st dryRun fs
            ⟨acc.files + 1, acc.records + r, acc.errors, t3⟩
        | .error _ =>
          todosLoop db st dryRun fs
            ⟨acc.files + 1, acc.records + r, acc.errors + 1, t2⟩

/-- Model of `TodosExtractor.extract`: a missing `todos/` directory returns a
zero result with no logging; otherwise the per-file loop runs and the final
`log_run` executes — through `self.db.conn`, so with the wired
`DatabaseManager` it raises out of `extract()` (the table changes already
made persist, as each statement committed in its own transaction). -/
def todosExtract (db : DbObj) (st : TrackerState) (t : Tables) (dirExists : Bool)
    (files : List TodoFile) (dryRun : Bool) : Except PyErr ExtractionResult × Tables :=
  if ¬dirExists then (.ok ⟨0, 0, 0⟩, t)
  else
    let acc := todosLoop db st dryRun files ⟨0, 0, 0, t⟩
    match logRun st acc.tables "todos" acc.files acc.records acc.errors (statusOf acc.errors) with
    | .ok t2 => (.ok ⟨acc.files, acc.records, acc.errors⟩, t2)
    | .error e => (.error e, acc.tables)

/-- Model of the per-source segment of `etl.py:main` (lines 189-218): run
`extract`, then log the result AGAIN via `state.log_run`; an exception out of
`extract` is caught by main's top-level handler (run aborts, prior table
state persists). -/
def mainRunTodos (db : DbObj) (st : TrackerState) (t : Tables) (dirExists : Bool)
    (files : List TodoFile) (dryRun : Bool) : Except PyErr ExtractionResult × Tables :=
  match todosExtract db st t dirExists files dryRun with
  | (.error e, t1) => (.error e, t1)
  | (.ok res, t1) =>
    match logRun st t1 "todos" res.filesProcessed res.recordsInserted res.errorsCount
        (statusOf res.errorsCount) with
    | .ok t2 => (.ok res, t2)
    | .error e => (.error e, t1)

/-- Model of `ProjectsExtractor._decode_project_path`: split on `-`, drop a
leading empty part, join with `/` (note: the result has no leading slash,
matching the code, not its docstring example). -/
def decodeProjectPath (encoded : String) : String :=
  let parts := strSplitOn encoded "-"
  let parts :=
    match parts with
    | p :: rest => if p = "" then rest else p :: rest
    | [] => []
  joinWith "/" parts

/-- What streaming and parsing a session JSONL file yields, abstracted:
a raise while reading/processing; an empty file (or one whose session id
cannot be determined), which returns 0; or session content — the session id,
the agent ids observed (paired with the session on insert), the message
UUIDs kept (lines without a UUID are dropped upstream), and the counts of
tool_use / tool_result blocks extracted. -/
inductive JsonlParse where
  | raises : JsonlParse
  | emptyFile : JsonlParse
  | session : String → List String → List String → Nat → Nat → JsonlParse

/-- A candidate JSONL file of a project directory. -/
structure JsonlFileModel where
  name : String
  path : String
  stat : FStat
  parse : JsonlParse

/-- A project directory entry. -/
structure ProjectDirModel where
  name : String
  isDir : Bool
  files : List JsonlFileModel

/-- Model of `ProjectsExtractor._process_session` (lines 314-493): the four
batch inserts, each counted with `execute_batch`'s return when writing, or
the raw list length in a dry run.  `agents`/`messages` use
`INSERT OR IGNORE`; `tool_uses`/`tool_results` use plain INSERT (their count
always increments the table). -/
def processSession (dryRun : Bool) (t : Tables) (sid : String)
    (agents messages : List String) (tu trs : Nat) : Nat × Tables :=
  let step1 :=
    if ¬dryRun then
      let r := insertOrIgnoreAgents t.agents (agents.map (fun a => (a, sid)))
      ({ t with agents := r.1 }, r.2)
    else (t, agents.length)
  let step2 :=
    if ¬dryRun then
      let r := insertOrIgnoreKeys step1.1.messages messages
      ({ step1.1 with messages := r.1 }, r.2)
    else (step1.1, messages.length)
  let step3 :=
    if ¬dryRun then ({ step2.1 with toolUses := step2.1.toolUses + tu }, tu)
    else (step2.1, tu)
  let step4 :=
    if ¬dryRun then ({ step3.1 with toolResults := step3.1.toolResults + trs }, trs)
    else (step3.1, trs)
  (step1.2 + step2.2 + step3.2 + step4.2, step4.1)

/-- Model of `ProjectsExtractor._process_jsonl_file`: the session
`INSERT OR IGNORE` is guarded by `dry_run` and executed through
`self.db.conn` (hence connGuard), then the messages are processed; the
session insert is not counted in `records_inserted`. -/
def processJsonlFile (db : DbObj) (dryRun : Bool) (t : Tables) (f : JsonlFileModel) :
    Except PyErr (Nat × Tables) :=
  match f.parse with
  | .raises => .error .osError
  | .emptyFile => .ok (0, t)
  | .session sid agents messages tu trs =>
    if ¬dryRun then
      match connGuard db (insertOrIgnoreKeys t.sessions [sid]) with
      | .error e => .error e
      | .ok r =>
        .ok (processSession dryRun { t with sessions := r.1 } sid agents messages tu trs)
    else .ok (processSession dryRun t sid agents messages tu trs)

/-- The inner per-file loop of `ProjectsExtractor.extract` (lines 140-154),
with the same accounting as the todos loop. -/
def projectFilesLoop (db : DbObj) (st : TrackerState) (dryRun : Bool) :
    List JsonlFileModel → LoopAcc → LoopAcc
  | [], acc => acc
  | f :: fs, acc =>
    if ¬ trackerShouldProcess st acc.tables f.path f.stat.mtime f.stat.size then
      projectFilesLoop db st dryRun fs acc
    else
      match processJsonlFile db dryRun acc.tables f with
      | .error _ => projectFilesLoop db st dryRun fs { acc with errors := acc.errors + 1 }
      | .ok (r, t2) =>
        match markProcessed st t2 "projects" f.path f.stat.mtime f.stat.size with
        | .ok t3 =>
          projectFilesLoop db st dryRun fs
            ⟨acc.files + 1, acc.records + r, acc.errors, t3⟩
        | .error _ =>
          projectFilesLoop db st dryRun fs
            ⟨acc.files + 1, acc.records + r, acc.errors + 1, t2⟩

/-- The per-project loop of `ProjectsExtractor.extract` (lines 112-159):
non-directories are skipped; the project `INSERT OR IGNORE` runs
unconditionally (NOT guarded by `dry_run`) through `self.db.conn`; a raise
there is caught by the per-project except, counting one error and skipping
the whole project. -/
def projectsLoop (db : DbObj) (st : TrackerState) (dryRun : Bool) :
    List ProjectDirModel → LoopAcc → LoopAcc
  | [], acc => acc
  | d :: ds, acc =>
    if ¬ d.isDir then projectsLoop db st dryRun ds acc
    else
      let ppath := decodeProjectPath d.name
      match connGuard db (insertOrIgnoreKeys acc.tables.projects [ppath]) with
      | .error _ => projectsLoop db st dryRun ds { acc with errors := acc.errors + 1 }
      | .ok r =>
        let acc2 := { acc with tables := { acc.tables with projects := r.1 } }
        projectsLoop db st dryRun ds (projectFilesLoop db st dryRun d.files acc2)

/-- Model of `ProjectsExtractor.extract`: missing `projects/` directory
returns a zero result; otherwise the per-project loop runs and the final
`log_run` executes through `self.db.conn`. -/
def projectsExtract (db : DbObj) (st : TrackerState) (t : Tables) (dirExists : Bool)
    (dirs : List ProjectDirModel) (dryRun : Bool) : Except PyErr ExtractionResult × Tables :=
  if ¬dirExists then (.ok ⟨0, 0, 0⟩, t)
  else
    let acc := projectsLoop db st dryRun dirs ⟨0, 0, 0, t⟩
    match logRun st acc.tables "projects" acc.files acc.records acc.errors
        (statusOf acc.errors) with
    | .ok t2 => (.ok ⟨acc.files, acc.records, acc.errors⟩, t2)
    | .error e => (.error e, acc.tables)

/-! ## Concrete instances used to settle the claims -/

/-- A representative INSERT template. -/
def tSql : String := "INSERT INTO t (a) VALUES (?)"

/-- A one-column integer row; serializes as `(1)`, 3 characters. -/
def smallRow : Row := [Value.intVal 1]

/-- A 300-character string (300 times `x`). -/
def bigStr : String := String.mk (List.replicate 300 (Char.ofNat 120))

/-- A one-column row holding `bigStr`; serializes to 304 characters. -/
def bigRow : Row := [Value.strVal bigStr]

/-- 250 distinct integer rows `(0) ... (249)`. -/
def recs250 : List Row := (List.range 250).map (fun i => ([Value.intVal (i : Int)] : Row))

/-- All data and bookkeeping tables empty. -/
def emptyTables : Tables := ⟨[], [], [], [], [], 0, 0, [], []⟩

/-- A state tracker wired as in `etl.py:main` (`db` is the `DatabaseManager`). -/
def trackerWired : TrackerState := ⟨.manager, false, 1000⟩

/-- A state tracker whose `db` is a bare `LocalSQLiteBackend` (the object the
extractors' `self.db.conn` statements were written against). -/
def trackerDirect : TrackerState := ⟨.localBackend, false, 1000⟩

/-- A todos file `P-agent-P.json` holding one element. -/
def todoFileP : TodoFile :=
  ⟨"P-agent-P.json", "/claude/todos/P-agent-P.json", ⟨50, 5⟩,
    .items [⟨"write spec", "writing spec", "pending"⟩]⟩

/-- Three candidate todos files, all new, the middle one unreadable. -/
def todoFilesOneBad : List TodoFile :=
  [⟨"A-agent-A.json", "/claude/todos/A-agent-A.json", ⟨51, 5⟩,
      .items [⟨"first", "doing first", "pending"⟩]⟩,
   ⟨"B-agent-B.json", "/claude/todos/B-agent-B.json", ⟨52, 5⟩, .unreadable⟩,
   ⟨"C-agent-C.json", "/claude/todos/C-agent-C.json", ⟨53, 5⟩,
      .items [⟨"third", "doing third", "pending"⟩]⟩]

/-- One project directory `-Users-alice-app` holding one new session JSONL of
two messages, one carrying a tool_use block. -/
def projectDirAlice : ProjectDirModel :=
  ⟨"-Users-alice-app", true,
    [⟨"s1.jsonl", "/claude/projects/-Users-alice-app/s1.jsonl", ⟨100, 10⟩,
        .session "s1" [] ["u1", "u2"] 1 0⟩]⟩

/-- The two-call sequence used to witness the count-threshold flush: 250
small rows, then 250 more (500 in total for the single key). -/
def c4calls : List (List Row) := [List.replicate 250 smallRow, List.replicate 250 smallRow]

/-- Buffer states with at most the one binding the run under study touches
(the empty dict before the first call, or the single key's binding). -/
def NormalBuf (b : D1Backend) (key : String) (acc : List Row) : Prop :=
  (b.buffer = [] ∧ acc = []) ∨ b.buffer = [(key, acc)]

/-- The string `a'b` (one embedded single quote). -/
def aposStr : String := String.mk [Char.ofNat 97, squote, Char.ofNat 98]

/-! ## Theorems -/

/-- Escaping produces the empty string only from the empty string. -/
lemma escapeQuotes_eq_nil_iff (l : List Char) : escapeQuotes l = [] ↔ l = [] := by
  cases l with
  | nil => simp [escapeQuotes]
  | cons c cs =>
    simp only [escapeQuotes]
    split <;> simp

/-- Collapsing doubled quotes undoes quote escaping. -/
lemma collapse_escape (l : List Char) : collapseQuotes (escapeQuotes l) = l := by
  induction l with
  | nil => rfl
  | cons c cs ih =>
    by_cases hc : c = squote
    · subst hc
      simp only [escapeQuotes, if_pos rfl, collapseQuotes, and_self, if_pos, ih]
    · simp only [escapeQuotes, if_neg hc]
      cases hrest : escapeQuotes cs with
      | nil =>
        have hcs : cs = [] := (escapeQuotes_eq_nil_iff cs).mp hrest
        subst hcs
        rfl
      | cons d ds =>
        have hstep : collapseQuotes (c :: d :: ds) = c :: collapseQuotes (d :: ds) := by
          simp [collapseQuotes, hc]
        rw [hstep, ← hrest, ih]

/-- Dropping the last element of `l ++ [a]` gives back `l`. -/
lemma dropLast_append_single (l : List Char) (a : Char) : (l ++ [a]).dropLast = l := by
  simp

/-- C10.  `_format_value` on a string returns a single-quoted literal whose
body doubles each embedded single quote; stripping the outer quotes and
collapsing doubled quotes recovers the original string exactly, and the
encoding is injective on strings. -/
theorem format_string_literal_roundtrip (s t : String)
    (h : formatValue (.strVal s) = formatValue (.strVal t)) :
    sqlStringDecode (formatValue (.strVal s)) = s ∧ s = t := by
  constructor
  · show String.mk (collapseQuotes (((String.mk
        (squote :: (escapeQuotes s.data ++ [squote]))).data.drop 1).dropLast)) = s
    have h1 : (String.mk (squote :: (escapeQuotes s.data ++ [squote]))).data.drop 1
        = escapeQuotes s.data ++ [squote] := rfl
    rw [h1, dropLast_append_single, collapse_escape]
  · have hd : squote :: (escapeQuotes s.data ++ [squote])
        = squote :: (escapeQuotes t.data ++ [squote]) := congrArg String.data h
    have h2 : escapeQuotes s.data ++ [squote] = escapeQuotes t.data ++ [squote] :=
      List.cons_injective hd
    have h3 : escapeQuotes s.data = escapeQuotes t.data := by
      have := congrArg List.dropLast h2
      simpa using this
    have h4 : s.data = t.data := by
      have := congrArg collapseQuotes h3
      rwa [collapse_escape, collapse_escape] at this
    cases s; cases t
    exact congrArg String.mk h4

/-- Witness for C10 at the concrete string `a'b`. -/
theorem format_string_literal_roundtrip_witness :
    sqlStringDecode (formatValue (.strVal aposStr)) = aposStr ∧ aposStr = aposStr :=
  format_string_literal_roundtrip aposStr aposStr rfl

/-- C7.  The selection state machine of the factory: any completed run's
trajectory starts at Remote exactly when remote mode was requested (Local
otherwise), contains at most one Remote-to-Local transition — and then only
with the fallback flag enabled and remote construction or remote `connect()`
raising — and never a Local-to-Remote transition; with the flag disabled,
either remote failure is fatal (the run errors out). -/
theorem backend_selection_state_machine (a : ManagerArgs) (env : ExtEnv) :
    (∀ tr, managerTrace a env = .ok tr →
        tr.head? = some (requestedBK a.remote) ∧
        transCount tr .remote .local ≤ 1 ∧
        transCount tr .local .remote = 0 ∧
        (1 ≤ transCount tr .remote .local →
          a.remote = true ∧ a.fallbackToLocal = true ∧
            (env.remoteCtorRaises = true ∨ env.remoteConnectRaises = true))) ∧
    (a.remote = true → a.fallbackToLocal = false → env.remoteCtorRaises = true →
        ∃ e, managerTrace a env = .error e) ∧
    (a.remote = true → a.fallbackToLocal = false → env.remoteCtorRaises = false →
        env.remoteConnectRaises = true → ∃ e, managerTrace a env = .error e) := by
  obtain ⟨dbp, rem, fb⟩ := a
  obtain ⟨cr, cnr, lr⟩ := env
  cases rem <;> cases fb <;> cases cr <;> cases cnr <;> cases lr <;>
    refine ⟨fun tr htr => ?_, fun h1 h2 h3 => ?_, fun h1 h2 h3 h4 => ?_⟩ <;>
    simp_all [managerTrace, initManager, connectManager, backendConnectRaises,
      backendKind, requestedBK, Except.bind, Except.map] <;>
    (try subst htr) <;> (try decide)

/-- Witness for C7: remote requested with fallback enabled and the remote
`connect()` probe failing; the trajectory is Remote, Remote, Local with its
single Remote-to-Local transition triggered as described. -/
theorem backend_selection_state_machine_witness :
    [BK.remote, BK.remote, BK.local].head? = some (requestedBK true) ∧
    transCount [BK.remote, BK.remote, BK.local] .remote .local ≤ 1 ∧
    transCount [BK.remote, BK.remote, BK.local] .local .remote = 0 ∧
    (true = true ∧ true = true ∧ (false = true ∨ true = true)) := by
  have h := (backend_selection_state_machine ⟨none, true, true⟩ ⟨false, true, false⟩).1
    [BK.remote, BK.remote, BK.local] rfl
  exact ⟨h.1, h.2.1, h.2.2.1, h.2.2.2 (by decide)⟩

/-- C8.  Whenever an `execute_batch` call triggers a flush, the returned
count is the whole buffered total for the key (previous calls included), not
this call's row count; concretely, two calls of 300 rows each return 300
then 600, summing to 900 against 600 distinct rows submitted. -/
theorem execute_batch_flush_returns_total_buffered :
    (∀ (b : D1Backend) (sql : String) (records : List Row),
        records ≠ [] → (execBatch b sql records).flushed.isSome = true →
        (execBatch b sql records).ret
          = (getBuffer b.buffer (strTrim sql)).length + records.length) ∧
    ((runCalls tSql [List.replicate 300 smallRow, List.replicate 300 smallRow] ⟨[]⟩).rets
        = [300, 600] ∧
     (runCalls tSql [List.replicate 300 smallRow, List.replicate 300 smallRow] ⟨[]⟩).rets.sum
        = 900 ∧
     ([List.replicate 300 smallRow, List.replicate 300 smallRow] : List (List Row)).flatten.length
        = 600 ∧ 900 > 600) := by
  constructor
  · intro b sql records hne hfl
    have hemp : records.isEmpty = false := by
      cases records with
      | nil => exact absurd rfl hne
      | cons x xs => rfl
    simp only [execBatch, hemp, Bool.false_eq_true, if_false] at hfl ⊢
    by_cases hc : (decide ((getBuffer b.buffer (strTrim sql) ++ records).length ≥ bufferLimit) ||
        decide (estimateStatementSize (strTrim sql)
          (getBuffer b.buffer (strTrim sql) ++ records) > statementCharLimit)) = true
    · rw [if_pos hc]
      exact List.length_append _ _
    · rw [if_neg hc] at hfl
      simp at hfl
  · decide

/-- Witness for C8: a flush-triggering call on a buffer already holding 400
rows returns the 500-row total. -/
theorem execute_batch_flush_returns_total_buffered_witness :
    (execBatch ⟨[("K", List.replicate 400 smallRow)]⟩ "K" (List.replicate 100 smallRow)).ret
      = (getBuffer ([("K", List.replicate 400 smallRow)] :
          List (String × List Row)) (strTrim "K")).length
        + (List.replicate 100 smallRow).length :=
  execute_batch_flush_returns_total_buffered.1 ⟨[("K", List.replicate 400 smallRow)]⟩ "K"
    (List.replicate 100 smallRow) (by decide) (by decide)

/-- Counterexample to C4 as stated: with rows whose serialized size is large
(one 300-character string per row), the character-size trigger fires before
the 500-row count trigger, so two calls of 250 rows each (500 rows in total
for the key) produce TWO flushes, and a single call of 499 rows produces a
flush even though the count threshold was never reached. -/
theorem buffer_flush_char_trigger_counterexample :
    (runCalls tSql [List.replicate 250 bigRow, List.replicate 250 bigRow] ⟨[]⟩).flushes.length
        = 2 ∧
    ([List.replicate 250 bigRow, List.replicate 250 bigRow] : List (List Row)).flatten.length
        = bufferLimit ∧
    (runCalls tSql [List.replicate 499 bigRow] ⟨[]⟩).flushes.length = 1 ∧
    (List.replicate 499 bigRow : List Row).length = bufferLimit - 1 := by
  decide

/-- C5.  `StateTracker.should_process_file` returns true exactly when the
force flag is set, or no fingerprint row exists for the path, or the current
mtime is strictly newer than recorded, or the current size differs from the
recorded size; it returns false exactly when none of these hold. -/
theorem should_process_file_characterization (force : Bool)
    (tbl : List (String × FileRow)) (path : String) (m s : Int) :
    (shouldProcessFile force tbl path m s = true ↔
      force = true ∨ lookupFileState tbl path = none ∨
        ∃ prev, lookupFileState tbl path = some prev ∧ (prev.mtime < m ∨ s ≠ prev.size)) ∧
    (shouldProcessFile force tbl path m s = false ↔
      force = false ∧
        ∃ prev, lookupFileState tbl path = some prev ∧ m ≤ prev.mtime ∧ s = prev.size) := by
  cases force <;> cases h : lookupFileState tbl path <;>
    simp [shouldProcessFile, h, not_lt]

/-- C9.  When the remote backend constructs fine but its `connect()` raises
and fallback is enabled, `DatabaseManager.connect` switches to a local
backend at the module-level `DEFAULT_DB`, ignoring the `db_path` handed to
the constructor; the supplied path is honored in the non-remote case and in
the construction-time fallback. -/
theorem connect_fallback_uses_default_path (p : String) :
    (initAndConnect ⟨some p, true, true⟩ ⟨false, true, false⟩).map (fun m => m.backend)
        = .ok (.localB DEFAULT_DB) ∧
    (initManager ⟨some p, false, true⟩ ⟨false, false, false⟩).map (fun m => m.backend)
        = .ok (.localB p) ∧
    (initManager ⟨some p, true, true⟩ ⟨true, false, false⟩).map (fun m => m.backend)
        = .ok (.localB p) := by
  refine ⟨rfl, rfl, rfl⟩

/-- C3.  Evaluation of the `_flush_buffer` failure path: for 250 buffered
rows failing while dispatching the second 100-row chunk (one complete chunk
already sent, `total_inserted = 100`), the code re-buffers
`records[150:]` — the last 100 rows — whereas the not-yet-dispatched
remainder is `records[100:]` (150 rows): rows 100-149 are dropped (silent
loss) while rows 150-199 were never the issue.  The slice
`records[len(records) - total_inserted:]` contradicts the claimed (and
intended) "re-buffer only the unflushed remainder". -/
theorem flush_failure_rebuffers_wrong_slice :
    flushBufferOnFail recs250 1 = recs250.drop 150 ∧
    recs250.drop 150 ≠ recs250.drop 100 ∧
    ([Value.intVal 100] : Row) ∈ recs250.drop 100 ∧
    ([Value.intVal 100] : Row) ∉ flushBufferOnFail recs250 1 ∧
    (flushBufferOnFail recs250 1).length = 100 ∧
    (recs250.drop 100).length = 150 := by
  decide

/-- C1.  Evaluation of `ProjectsExtractor.extract` with `dry_run = True` on a
fresh database and one new session file: the unconditional project
`INSERT OR IGNORE` and the unconditional `mark_processed` still execute, so
the `projects` table and the `etl_file_state` table change (and `log_run`
appends to `etl_runs`), contradicting "no table is modified".  As actually
wired in `etl.py` (`db` being the `DatabaseManager`, which has no `conn`
attribute) the same dry run instead raises `AttributeError` out of
`extract()`, so it does not even return the counts. -/
theorem dry_run_side_effects_eval :
    (projectsExtract .localBackend trackerDirect emptyTables true [projectDirAlice] true).1
        = .ok ⟨1, 3, 0⟩ ∧
    (projectsExtract .localBackend trackerDirect emptyTables true [projectDirAlice] true).2.projects
        = ["Users/alice/app"] ∧
    (projectsExtract .localBackend trackerDirect emptyTables true [projectDirAlice] true).2.etlFileState
        = [("/claude/projects/-Users-alice-app/s1.jsonl", ⟨"projects", 100, 10, 1000⟩)] ∧
    emptyTables.projects = [] ∧ emptyTables.etlFileState = [] ∧
    (projectsExtract .manager trackerWired emptyTables true [projectDirAlice] true).1
        = .error .attributeError := by
  decide

/-- C2.  Evaluation of one source's segment of `etl.py:main`: as wired, the
state tracker's `log_run` raises `AttributeError` (`self.db.conn` on a
`DatabaseManager`), so the run aborts and `etl_runs` receives zero rows for
the (timestamp, source) pair; with a conn-bearing db object, `extract()`
itself logs a run row and `main` logs a second one — two rows for the same
(run timestamp, source) pair, not one. -/
theorem run_log_rows_per_source_eval :
    (mainRunTodos .manager trackerWired emptyTables true [todoFileP] false).1
        = .error .attributeError ∧
    (mainRunTodos .manager trackerWired emptyTables true [todoFileP] false).2.etlRuns = [] ∧
    ((mainRunTodos .localBackend trackerDirect emptyTables true [todoFileP] false).2.etlRuns.map
        (fun r => (r.runTs, r.source))) = [(1000, "todos"), (1000, "todos")] := by
  decide

/-- C6.  Evaluation of `TodosExtractor.extract` on N = 3 due files of which
exactly the middle one raises while being read: with a conn-bearing db the
loop returns `files_processed = 2 = N - 1`, `errors_count = 1 ≥ 1` without
raising, as claimed; but as wired in `etl.py` the same call raises
`AttributeError` out of `extract()` (from `log_run`, and `mark_processed`
failures have inflated the error count), violating "does not raise". -/
theorem partial_failure_isolation_eval :
    (todosExtract .localBackend trackerDirect emptyTables true todoFilesOneBad false).1
        = .ok ⟨2, 2, 1⟩ ∧
    todoFilesOneBad.length = 3 ∧
    (todosExtract .manager trackerWired emptyTables true todoFilesOneBad false).1
        = .error .attributeError := by
  decide

/-- Chunking with sufficient fuel flattens back to the input. -/
lemma chunkListAux_flatten {α : Type} :
    ∀ (fuel : Nat) (l : List α), l.length ≤ fuel → (chunkListAux fuel l).flatten = l := by
  intro fuel
  induction fuel with
  | zero =>
    intro l hl
    have h0 : l = [] := List.length_eq_zero.mp (Nat.le_zero.mp hl)
    subst h0; rfl
  | succ n ih =>
    intro l hl
    cases l with
    | nil => rfl
    | cons c cs =>
      simp only [chunkListAux, List.flatten_cons]
      rw [ih]
      · exact List.take_append_drop _ _
      · simp only [List.length_drop, List.length_cons] at hl ⊢
        simp only [chunkSize]
        omega

/-- The chunks of a list flatten back to it: no row is lost or duplicated. -/
lemma chunkList_flatten {α : Type} (l : List α) : (chunkList l).flatten = l :=
  chunkListAux_flatten _ _ le_rfl

/-- When the row count is a multiple of the chunk size, every chunk is full. -/
lemma chunkListAux_full {α : Type} :
    ∀ (fuel : Nat) (l : List α), l.length ≤ fuel → chunkSize ∣ l.length →
      ∀ ch ∈ chunkListAux fuel l, ch.length = chunkSize := by
  intro fuel
  induction fuel with
  | zero =>
    intro l hl _ ch hch
    have h0 : l = [] := List.length_eq_zero.mp (Nat.le_zero.mp hl)
    subst h0; simp [chunkListAux] at hch
  | succ n ih =>
    intro l hl hdvd ch hch
    cases l with
    | nil => simp [chunkListAux] at hch
    | cons c cs =>
      obtain ⟨k, hk⟩ := hdvd
      have hlenpos : 0 < (c :: cs).length := by simp
      have hk1 : 1 ≤ k := by
        rcases Nat.eq_zero_or_pos k with rfl | h
        · rw [hk] at hlenpos; simp [chunkSize] at hlenpos
        · exact h
      have hlen : chunkSize ≤ (c :: cs).length := by
        rw [hk]
        calc chunkSize = chunkSize * 1 := (Nat.mul_one _).symm
        _ ≤ chunkSize * k := Nat.mul_le_mul_left _ hk1
      simp only [chunkListAux, List.mem_cons] at hch
      rcases hch with rfl | hch
      · rw [List.length_take]
        omega
      · refine ih _ ?_ ?_ ch hch
        · simp only [List.length_drop, List.length_cons] at hl ⊢
          simp only [chunkSize] at *
          omega
        · refine ⟨k - 1, ?_⟩
          simp only [List.length_drop, hk, chunkSize] at *
          omega

/-- Reading the single binding of a one-entry buffer. -/
lemma getBuffer_single (k : String) (v : List Row) : getBuffer [(k, v)] k = v := by
  simp [getBuffer, List.find?]

/-- A normal buffer reads back its accumulated rows. -/
lemma normalBuf_getBuffer {b : D1Backend} {key : String} {acc : List Row}
    (h : NormalBuf b key acc) : getBuffer b.buffer key = acc := by
  rcases h with ⟨h1, h2⟩ | h1
  · rw [h1, h2]; rfl
  · rw [h1]; exact getBuffer_single _ _

/-- Writing the key of a normal buffer keeps it normal, with the new rows. -/
lemma normalBuf_set {b : D1Backend} {key : String} {acc : List Row}
    (h : NormalBuf b key acc) (v : List Row) :
    NormalBuf ⟨setBuffer b.buffer key v⟩ key v := by
  rcases h with ⟨h1, _⟩ | h1 <;> right <;> rw [h1] <;> simp [setBuffer]

/-- An `execute_batch` call below both flush triggers buffers its rows and
returns this call's own row count. -/
lemma execBatch_noflush (b : D1Backend) (sql : String) (c : List Row)
    (hcne : c ≠ [])
    (hlen : (getBuffer b.buffer (strTrim sql) ++ c).length < bufferLimit)
    (hest : estimateStatementSize (strTrim sql) (getBuffer b.buffer (strTrim sql) ++ c)
      ≤ statementCharLimit) :
    execBatch b sql c = ⟨c.length,
      ⟨setBuffer b.buffer (strTrim sql) (getBuffer b.buffer (strTrim sql) ++ c)⟩, none⟩ := by
  have hcemp : c.isEmpty = false := by
    cases c with
    | nil => exact absurd rfl hcne
    | cons x xs => rfl
  have hcond : (decide ((getBuffer b.buffer (strTrim sql) ++ c).length ≥ bufferLimit) ||
      decide (estimateStatementSize (strTrim sql) (getBuffer b.buffer (strTrim sql) ++ c)
        > statementCharLimit)) = false := by
    simp only [Bool.or_eq_false_iff, decide_eq_false_iff_not, not_le, not_lt]
    exact ⟨hlen, hest⟩
  simp only [execBatch, hcemp, Bool.false_eq_true, if_false, hcond]

/-- An `execute_batch` call reaching the count threshold flushes the whole
buffered list in `chunkSize`-row chunks and clears the key. -/
lemma execBatch_flush (b : D1Backend) (sql : String) (c : List Row)
    (hcne : c ≠ [])
    (hlen : (getBuffer b.buffer (strTrim sql) ++ c).length ≥ bufferLimit) :
    execBatch b sql c = ⟨(getBuffer b.buffer (strTrim sql) ++ c).length,
      ⟨setBuffer b.buffer (strTrim sql) []⟩,
      some (chunkList (getBuffer b.buffer (strTrim sql) ++ c))⟩ := by
  have hcemp : c.isEmpty = false := by
    cases c with
    | nil => exact absurd rfl hcne
    | cons x xs => rfl
  have hcond : (decide ((getBuffer b.buffer (strTrim sql) ++ c).length ≥ bufferLimit) ||
      decide (estimateStatementSize (strTrim sql) (getBuffer b.buffer (strTrim sql) ++ c)
        > statementCharLimit)) = true := by
    simp only [Bool.or_eq_true, decide_eq_true_eq]
    exact Or.inl hlen
  simp only [execBatch, hcemp, Bool.false_eq_true, if_false, hcond, if_true]

/-- A call sequence staying below both flush triggers at every step
accumulates all its rows in the key's buffer, returns each call's own count,
and flushes nothing. -/
lemma runCalls_noflush (sql : String) :
    ∀ (calls : List (List Row)) (b : D1Backend) (acc : List Row),
      NormalBuf b (strTrim sql) acc →
      (∀ c ∈ calls, c ≠ []) →
      (∀ i, i < calls.length → acc.length + ((calls.take (i+1)).flatten).length < bufferLimit) →
      (∀ i, i < calls.length →
        estimateStatementSize (strTrim sql) (acc ++ (calls.take (i+1)).flatten)
          ≤ statementCharLimit) →
      (runCalls sql calls b).flushes = [] ∧
      (runCalls sql calls b).rets = calls.map List.length ∧
      NormalBuf (runCalls sql calls b).backend (strTrim sql) (acc ++ calls.flatten) := by
  intro calls
  induction calls with
  | nil =>
    intro b acc hb _ _ _
    refine ⟨rfl, rfl, ?_⟩
    simpa using hb
  | cons c cs ih =>
    intro b acc hb hne hcount hest
    have hcne : c ≠ [] := hne c (List.mem_cons_self _ _)
    have hget : getBuffer b.buffer (strTrim sql) = acc := normalBuf_getBuffer hb
    have hcount0 := hcount 0 (by simp)
    have hest0 := hest 0 (by simp)
    simp only [List.take_succ_cons, List.take_zero, List.flatten_cons, List.flatten_nil,
      List.append_nil] at hcount0 hest0
    have hstep := execBatch_noflush b sql c hcne
      (by rw [hget, List.length_append]; exact hcount0)
      (by rw [hget]; exact hest0)
    rw [hget] at hstep
    have hb2 : NormalBuf ⟨setBuffer b.buffer (strTrim sql) (acc ++ c)⟩ (strTrim sql) (acc ++ c) :=
      normalBuf_set hb _
    have ihres := ih ⟨setBuffer b.buffer (strTrim sql) (acc ++ c)⟩ (acc ++ c) hb2
      (fun x hx => hne x (List.mem_cons_of_mem _ hx))
      (by
        intro i hi
        have h2 := hcount (i+1) (by simpa using Nat.succ_lt_succ hi)
        simp only [List.take_succ_cons, List.flatten_cons, List.length_append] at h2 ⊢
        omega)
      (by
        intro i hi
        have h2 := hest (i+1) (by simpa using Nat.succ_lt_succ hi)
        simp only [List.take_succ_cons, List.flatten_cons] at h2
        rw [List.append_assoc]
        exact h2)
    obtain ⟨hf, hr, hn⟩ := ihres
    simp only [runCalls, hstep]
    refine ⟨hf, ?_, ?_⟩
    · simp only [hr, List.map_cons]
    · simp only [List.flatten_cons]
      rw [← List.append_assoc]
      exact hn

/-- Running a concatenated call sequence composes the two runs' traces. -/
lemma runCalls_append (sql : String) :
    ∀ (xs ys : List (List Row)) (b : D1Backend),
      runCalls sql (xs ++ ys) b =
        ⟨(runCalls sql ys (runCalls sql xs b).backend).backend,
         (runCalls sql xs b).rets ++ (runCalls sql ys (runCalls sql xs b).backend).rets,
         (runCalls sql xs b).flushes ++ (runCalls sql ys (runCalls sql xs b).backend).flushes⟩ := by
  intro xs
  induction xs with
  | nil => intro ys b; rfl
  | cons x xs ih =>
    intro ys b
    simp only [List.cons_append, runCalls, List.append_eq]
    rw [ih]
    cases (execBatch b sql x).flushed <;> simp

/-- A prefix of the calls contributes at most the whole flattened length. -/
lemma take_flatten_length_le {α : Type} (L : List (List α)) (n : Nat) :
    ((L.take n).flatten).length ≤ L.flatten.length := by
  conv_rhs => rw [← List.take_append_drop n L]
  rw [List.flatten_append, List.length_append]
  exact Nat.le_add_right _ _

/-- C4 (amended).  Provided the estimated serialized statement size never
exceeds the character threshold while the buffered count is below the row
threshold, a sequence of nonempty `execute_batch` calls accumulating exactly
`bufferLimit` (500) rows for one SQL key triggers exactly one flush — at the
last call — dispatching exactly those 500 rows, in order, as full 100-row
sub-chunks, leaving the key's buffer empty; accumulating 499 rows triggers
no flush, and `close()`/drain then dispatches exactly those 499 rows. -/
theorem buffer_flush_count_threshold (sql : String) (calls : List (List Row))
    (hne : ∀ c ∈ calls, c ≠ [])
    (hest : ∀ i : Nat, i < calls.length → ((calls.take (i+1)).flatten).length < bufferLimit →
        estimateStatementSize (strTrim sql) ((calls.take (i+1)).flatten) ≤ statementCharLimit) :
    (calls.flatten.length = bufferLimit →
        (runCalls sql calls ⟨[]⟩).flushes = [chunkList calls.flatten] ∧
        (chunkList calls.flatten).flatten = calls.flatten ∧
        (∀ ch ∈ chunkList calls.flatten, ch.length = chunkSize) ∧
        getBuffer (runCalls sql calls ⟨[]⟩).backend.buffer (strTrim sql) = []) ∧
    (calls.flatten.length = bufferLimit - 1 →
        (runCalls sql calls ⟨[]⟩).flushes = [] ∧
        getBuffer (runCalls sql calls ⟨[]⟩).backend.buffer (strTrim sql) = calls.flatten ∧
        flushAllBuffers (runCalls sql calls ⟨[]⟩).backend
          = (calls.flatten.length, [chunkList calls.flatten])) := by
  constructor
  · intro h500
    rcases List.eq_nil_or_concat calls with rfl | ⟨init, last, rfl⟩
    · simp [bufferLimit] at h500
    · simp only [List.concat_eq_append] at hne hest h500 ⊢
      have hlast : last ≠ [] := hne last (by simp)
      have hlastpos : 1 ≤ last.length := List.length_pos.mpr hlast
      have hflat : (init ++ [last]).flatten = init.flatten ++ last := by
        simp [List.flatten_append]
      have hinit_len : init.flatten.length + last.length = bufferLimit := by
        rw [hflat, List.length_append] at h500
        exact h500
      have hinit := runCalls_noflush sql init ⟨[]⟩ [] (Or.inl ⟨rfl, rfl⟩)
        (fun c hc => hne c (by simp [hc]))
        (fun i hi => by
          have hle := take_flatten_length_le init (i+1)
          simp only [List.length_nil, Nat.zero_add]
          omega)
        (fun i hi => by
          have hile : i + 1 ≤ init.length := hi
          have htk : (init ++ [last]).take (i+1) = init.take (i+1) :=
            List.take_append_of_le_length hile
          have hle := take_flatten_length_le init (i+1)
          have hguard : ((init.take (i+1)).flatten).length < bufferLimit := by omega
          have := hest i (by simp; omega) (by rw [htk]; exact hguard)
          rw [htk] at this
          simpa using this)
      obtain ⟨hf1, hr1, hn1⟩ := hinit
      have hn1' : NormalBuf (runCalls sql init ⟨[]⟩).backend (strTrim sql) init.flatten := by
        simpa using hn1
      have hget1 : getBuffer (runCalls sql init ⟨[]⟩).backend.buffer (strTrim sql)
          = init.flatten := normalBuf_getBuffer hn1'
      have hstep := execBatch_flush (runCalls sql init ⟨[]⟩).backend sql last hlast
        (by rw [hget1, List.length_append]; omega)
      rw [hget1] at hstep
      have hdisp : init.flatten ++ last = (init ++ [last]).flatten := hflat.symm
      rw [runCalls_append]
      refine ⟨?_, chunkList_flatten _, ?_, ?_⟩
      · simp only [runCalls, hstep, hf1, hdisp, List.nil_append]
      · intro ch hch
        refine chunkListAux_full _ _ le_rfl ?_ ch hch
        rw [h500]
        decide
      · simp only [runCalls, hstep]
        have hset := normalBuf_set hn1' []
        simpa using normalBuf_getBuffer hset
  · intro h499
    have hrun := runCalls_noflush sql calls ⟨[]⟩ [] (Or.inl ⟨rfl, rfl⟩) hne
      (fun i hi => by
        have hle := take_flatten_length_le calls (i+1)
        simp only [List.length_nil, Nat.zero_add]
        simp only [bufferLimit] at *
        omega)
      (fun i hi => by
        have hle := take_flatten_length_le calls (i+1)
        have hguard : ((calls.take (i+1)).flatten).length < bufferLimit := by
          simp only [bufferLimit] at *
          omega
        simpa using hest i hi hguard)
    obtain ⟨hf, hr, hn⟩ := hrun
    have hjoinne : calls.flatten ≠ [] := by
      intro h0
      rw [h0] at h499
      simp [bufferLimit] at h499
    have hbuf : (runCalls sql calls ⟨[]⟩).backend.buffer = [(strTrim sql, calls.flatten)] := by
      rcases hn with ⟨h1, h2⟩ | h1
      · exact absurd (by simpa using h2) hjoinne
      · simpa using h1
    have hjemp : calls.flatten.isEmpty = false := by
      cases h : calls.flatten with
      | nil => exact absurd h hjoinne
      | cons x xs => rfl
    refine ⟨hf, ?_, ?_⟩
    · rw [hbuf]; exact getBuffer_single _ _
    · simp only [flushAllBuffers, hbuf, flushKeys, hjemp, Bool.false_eq_true, if_false]
      simp

/-- Witness for C4 (amended): two 250-row calls of small rows reach the
500-row threshold and flush exactly once, emptying the key's buffer. -/
theorem buffer_flush_count_threshold_witness :
    (runCalls tSql c4calls ⟨[]⟩).flushes = [chunkList c4calls.flatten] ∧
    getBuffer (runCalls tSql c4calls ⟨[]⟩).backend.buffer (strTrim tSql) = [] := by
  have h := (buffer_flush_count_threshold tSql c4calls (by decide) (by decide)).1 (by decide)
  exact ⟨h.1, h.2.2.2⟩

end ETL
